import Mathlib

set_option maxRecDepth 20000

/-!
Shallow embedding of the PII tagging engine (tagging_engine.py) and the
policy evaluator (policy_engine.py) of the data-compliance-audit repository.
Strings are modelled by Lean strings; pandas NaN cells become `none`;
Python string helpers (split, join, lower, startswith) are embedded as
executable functions with the same semantics, and each compiled regular
expression of the source is embedded as an equivalent decidable predicate.
-/

/-- Python s.split(sep) for a one-character separator: never collapses
separators and maps the empty string to a one-element list. -/
def splitAux (sep : Char) : List Char → List Char → List String
  | [], acc => [String.mk acc.reverse]
  | c :: rest, acc =>
    if c == sep then String.mk acc.reverse :: splitAux sep rest []
    else splitAux sep rest (c :: acc)

def pySplit (sep : Char) (s : String) : List String :=
  splitAux sep s.toList []

/-- Python sep.join(parts). -/
def joinWith (sep : String) : List String → String
  | [] => ""
  | [x] => x
  | x :: xs => x ++ sep ++ joinWith sep xs

/-- Python s.lower() on the ASCII column names used by the engine. -/
def pyLower (s : String) : String := String.mk (s.toList.map Char.toLower)

/-- Python s.startswith(pre). -/
def pyStartsWith (s pre : String) : Bool := pre.toList.isPrefixOf s.toList

/-- A regex word character, as used by the \b anchors of the name patterns. -/
def isWordChar (c : Char) : Bool := c.isAlphanum || c == '_'

def subAt (nd hay : List Char) (i : Nat) : Bool := nd.isPrefixOf (hay.drop i)

/-- re.search of a literal needle: some occurrence anywhere in the string. -/
def containsSub (nd : String) (hay : List Char) : Bool :=
  (List.range (hay.length + 1)).any (fun i => subAt nd.toList hay i)

/-- re.search of \b<needle>\b for a needle that starts and ends with a word
character: an occurrence whose two ends sit at word boundaries. -/
def wordBounded (nd : String) (hay : List Char) : Bool :=
  (List.range (hay.length + 1)).any (fun i =>
    subAt nd.toList hay i
    && (i == 0 || !(isWordChar (hay.getD (i - 1) (' '))))
    && (decide (hay.length ≤ i + nd.toList.length)
        || !(isWordChar (hay.getD (i + nd.toList.length) (' ')))))

def containsAnySub (nds : List String) (hay : List Char) : Bool :=
  nds.any (fun nd => containsSub nd hay)

/-- PII_COLUMN_NAME_PATTERNS["email"]: \bemail\b|e[-_]?mail (searched). -/
def nameRegexEmail (s : String) : Bool :=
  wordBounded ("email") s.toList
  || containsAnySub [("email"), ("e-mail"), ("e_mail")] s.toList

/-- PII_COLUMN_NAME_PATTERNS["phone"]: \bphone\b|contact[-_]?number|mobile. -/
def nameRegexPhone (s : String) : Bool :=
  wordBounded ("phone") s.toList
  || containsAnySub [("contactnumber"), ("contact-number"), ("contact_number")] s.toList
  || containsSub ("mobile") s.toList

/-- PII_COLUMN_NAME_PATTERNS["ip"]: ip([-_]?address)?|^ip$ (searched),
whose optional group makes any occurrence of "ip" suffice. -/
def nameRegexIp (s : String) : Bool :=
  containsAnySub [("ip"), ("ipaddress"), ("ip-address"), ("ip_address")] s.toList
  || s == ("ip")

/-- PII_COLUMN_NAME_PATTERNS["dob"]: date[-_]?of[-_]?birth|\bdob\b|birth[_-]?date. -/
def nameRegexDob (s : String) : Bool :=
  containsAnySub
    [("dateofbirth"), ("dateof-birth"), ("dateof_birth"),
     ("date-ofbirth"), ("date-of-birth"), ("date-of_birth"),
     ("date_ofbirth"), ("date_of-birth"), ("date_of_birth")] s.toList
  || wordBounded ("dob") s.toList
  || containsAnySub [("birthdate"), ("birth_date"), ("birth-date")] s.toList

/-- PII_COLUMN_NAME_PATTERNS["name"]:
\bname\b|full[-_]?name|first[_-]?name|last[_-]?name. -/
def nameRegexName (s : String) : Bool :=
  wordBounded ("name") s.toList
  || containsAnySub [("fullname"), ("full-name"), ("full_name")] s.toList
  || containsAnySub [("firstname"), ("first_name"), ("first-name")] s.toList
  || containsAnySub [("lastname"), ("last_name"), ("last-name")] s.toList

/-- PII_COLUMN_NAME_PATTERNS["national_id"]:
\b(ssn|nin|passport|national[_-]?id|aadhar|aadhaar)\b. -/
def nameRegexNationalId (s : String) : Bool :=
  [("ssn"), ("nin"), ("passport"), ("nationalid"), ("national_id"),
   ("national-id"), ("aadhar"), ("aadhaar")].any (fun nd => wordBounded nd s.toList)

/-- The ordered name-pattern catalog (Python dict insertion order). -/
def PII_COLUMN_NAME_PATTERNS : List (String × (String → Bool)) :=
  [(("email"), nameRegexEmail), (("phone"), nameRegexPhone), (("ip"), nameRegexIp),
   (("dob"), nameRegexDob), (("name"), nameRegexName),
   (("national_id"), nameRegexNationalId)]

def emailLocalChar (c : Char) : Bool :=
  c.isAlpha || c.isDigit || c == '.' || c == '_' || c == '%' || c == '+' || c == '-'

def emailDomChar (c : Char) : Bool := c.isAlpha || c.isDigit || c == '.' || c == '-'

/-- PII_VALUE_REGEXES["email"]: ^[A-Za-z0-9._%+-]+@[A-Za-z0-9.-]+\.[A-Za-z]{2,}$.
The domain part is split at its last dot: text before it must be a non-empty
run of domain characters and the trailing label must be ≥2 letters. -/
def matchEmail (s : String) : Bool :=
  match pySplit ('@') s with
  | [loc, dom] =>
    !loc.toList.isEmpty && loc.toList.all emailLocalChar && dom.toList.all emailDomChar
    && (let parts := pySplit ('.') dom
        decide (2 ≤ parts.length)
        && (let tld := parts.getLastD ("")
            decide (2 ≤ tld.toList.length) && tld.toList.all Char.isAlpha
            && !(parts.dropLast == [("")])))
  | _ => false

def phoneTailChar (c : Char) : Bool :=
  c.isDigit || c == ' ' || c == '\t' || c == '\n' || c == '\r' || c == '\x0b'
  || c == '\x0c' || c == '(' || c == ')' || c == '.' || c == '-'

/-- PII_VALUE_REGEXES["phone"]: ^(\+?\d[\d\s().-]{7,})$. -/
def matchPhone (s : String) : Bool :=
  match (if s.toList.head? == some ('+') then s.toList.tail else s.toList) with
  | c :: rest => c.isDigit && decide (7 ≤ rest.length) && rest.all phoneTailChar
  | [] => false

/-- One octet alternative: 25[0-5]|2[0-4]\d|[01]?\d\d?. -/
def matchOctet (s : String) : Bool :=
  match s.toList with
  | [a] => a.isDigit
  | [a, b] => a.isDigit && b.isDigit
  | [a, b, c] =>
    a.isDigit && b.isDigit && c.isDigit
    && (a == '0' || a == '1'
        || (a == '2' && (decide (b ≤ '4') || (b == '5' && decide (c ≤ '5')))))
  | _ => false

/-- PII_VALUE_REGEXES["ip"]: four dot-separated octets. -/
def matchIp (s : String) : Bool :=
  let parts := pySplit ('.') s
  parts.length == 4 && parts.all matchOctet

/-- PII_VALUE_REGEXES["dob"]: ^(?:\d{4}-\d{2}-\d{2}|\d{2}/\d{2}/\d{4})$. -/
def matchDob (s : String) : Bool :=
  match s.toList with
  | [a, b, c, d, e, f, g, h, i, j] =>
    (e == '-' && h == '-' && [a, b, c, d, f, g, i, j].all Char.isDigit)
    || (c == '/' && f == '/' && [a, b, d, e, g, h, i, j].all Char.isDigit)
  | _ => false

/-- PII_VALUE_REGEXES["national_id"]: ^(?:\d{3}-?\d{2}-?\d{4})$. -/
def matchNationalId (s : String) : Bool :=
  match s.toList with
  | [a, b, c, d, e, f, g, h, i] => [a, b, c, d, e, f, g, h, i].all Char.isDigit
  | [a, b, c, d, e, f, g, h, i, j] =>
    (d == '-' && [a, b, c, e, f, g, h, i, j].all Char.isDigit)
    || (f == '-' && [a, b, c, d, e, g, h, i, j].all Char.isDigit)
  | [a, b, c, d, e, f, g, h, i, j, k] =>
    d == '-' && g == '-' && [a, b, c, e, f, h, i, j, k].all Char.isDigit
  | _ => false

/-- The ordered value-pattern catalog (Python dict insertion order). -/
def PII_VALUE_REGEXES : List (String × (String → Bool)) :=
  [(("email"), matchEmail), (("phone"), matchPhone), (("ip"), matchIp),
   (("dob"), matchDob), (("national_id"), matchNationalId)]

/-- tagging_engine.detect_by_name: first name pattern that search-matches
the lower-cased column name wins. -/
def detect_by_name (column_name : String) : Option String :=
  let lower := pyLower column_name
  (PII_COLUMN_NAME_PATTERNS.find? (fun tp => tp.2 lower)).map (fun tp => tp.1)

/-- tagging_engine.detect_by_values: first 50 non-null values; the first tag
whose pattern fully matches at least 3 sampled values wins. -/
def detect_by_values (series : List (Option String)) : Option String :=
  let sample := (series.filterMap (fun x => x)).take 50
  if sample.isEmpty then none
  else (PII_VALUE_REGEXES.find? (fun tp => decide (3 ≤ sample.countP tp.2))).map
    (fun tp => tp.1)

/-- One pandas column as the scanner sees it: name, ordered nullable values
(already coerced to text), and whether its dtype is object (textual). -/
structure Column where
  name : String
  values : List (Option String)
  dtypeObject : Bool
deriving DecidableEq

/-- tagging_engine.ColumnPIIResult. -/
structure ColumnPIIResult where
  table : String
  column : String
  detected_tags : List String
  detection_reason : String
deriving DecidableEq

/-- The tags / reason_parts accumulators of scan_dataframe's per-column loop,
just before materialization. -/
def tagsAndParts (col : Column) : List String × List String :=
  let st1 : List String × List String :=
    match detect_by_name col.name with
    | some t => ([t], [("name:") ++ t])
    | none => ([], [])
  let st2 : List String × List String :=
    match detect_by_values col.values with
    | some t => if st1.1.contains t then st1 else (st1.1 ++ [t], st1.2 ++ [("value:") ++ t])
    | none => st1
  if st2.1.isEmpty && col.dtypeObject then
    let sampled := (col.values.filterMap (fun x => x)).take 20
    if !sampled.isEmpty && decide (5 ≤ sampled.countP (fun v => v.toList.contains (' '))) then
      (st2.1 ++ [("name")], st2.2 ++ [("heuristic:name_with_spaces")])
    else st2
  else st2

/-- Python ",".join(reason_parts) or "n/a". -/
def joinOrNA (parts : List String) : String :=
  let j := joinWith (",") parts
  if j == ("") then ("n/a") else j

/-- Lexicographic code-point comparison of char lists: Python's string
"less or equal". A kernel-computable stand-in for Lean's String order,
whose decision procedure does not reduce in the kernel. -/
def charListLe : List Char → List Char → Bool
  | [], _ => true
  | _ :: _, [] => false
  | a :: as, b :: bs => if a == b then charListLe as bs else decide (a < b)

/-- Python string comparison, as used by sorted(). -/
def pyStrLe (a b : String) : Bool := charListLe a.toList b.toList

/-- Python sorted on a list of strings. -/
def sortedTags (l : List String) : List String :=
  List.insertionSort (fun a b => pyStrLe a b = true) l

/-- The per-column body of scan_dataframe: a result is materialized only
when the tag accumulator is non-empty. -/
def classifyColumn (table_name : String) (col : Column) : Option ColumnPIIResult :=
  let tp := tagsAndParts col
  if tp.1.isEmpty then none
  else some ⟨table_name, col.name, sortedTags tp.1, joinOrNA tp.2⟩

/-- tagging_engine.scan_dataframe. -/
def scan_dataframe (df : List Column) (table_name : String) : List ColumnPIIResult :=
  df.filterMap (fun col => classifyColumn table_name col)

/-- One rule of the policies document. `id` is Option because
policy.get("id") yields None when the key is absent. -/
structure PolicyRule where
  id : Option String
  forbidden_tags : List String
  applies_to_tables : Option (List String)
  table_name_prefix : Option String
  require_tag_for_detected : Bool
deriving DecidableEq

/-- One row of the metadata registry CSV; pii_tags is none for a NaN cell. -/
structure RegistryRow where
  table : String
  column : String
  pii_tags : Option String
deriving DecidableEq

/-- policy_engine.Violation (policy_id is Option: a rule without id emits
None there). -/
structure Violation where
  policy_id : Option String
  table : String
  column : String
  pii_tags : String
  reason : String
deriving DecidableEq

/-- tags = set(str(row["pii_tags"]).split(",")) if notna else set(),
kept as the split list (set operations below deduplicate where Python does). -/
def rowTags (r : RegistryRow) : List String :=
  match r.pii_tags with
  | some s => pySplit (',') s
  | none => []

/-- Python ",".join(sorted(some_set)): sorted distinct elements, joined. -/
def joinSorted (l : List String) : String :=
  joinWith (",") (sortedTags l.dedup)

/-- applies_tables truthiness filter: skip iff the configured list is
non-empty and the table is not a member. -/
def appliesSkip (a : Option (List String)) (table : String) : Bool :=
  match a with
  | none => false
  | some l => !l.isEmpty && !(l.contains table)

/-- name_prefix truthiness filter: skip iff a non-empty prefix is configured
and the table name does not start with it. -/
def prefixSkip (np : Option String) (table : String) : Bool :=
  match np with
  | none => false
  | some p => !(p == ("")) && !(pyStartsWith table p)

/-- tags & forbidden, as a filtered list (emptiness and sorted join agree
with the Python set intersection). -/
def interForbidden (p : PolicyRule) (tags : List String) : List String :=
  tags.filter (fun t => p.forbidden_tags.contains t)

/-- The per-(policy, row) body of evaluate_policies: scope filters, then the
forbidden-tag check, then the missing-tag check, appended in that order. -/
def evalRow (p : PolicyRule) (r : RegistryRow) : List Violation :=
  let tags := rowTags r
  if appliesSkip p.applies_to_tables r.table then []
  else if prefixSkip ( PolicyRule.table_name_prefix p) r.table then []
  else
    (if !p.forbidden_tags.isEmpty && !(interForbidden p tags).isEmpty then
      [⟨p.id, r.table, r.column, joinSorted tags,
        ("forbidden tags present: ") ++ joinSorted (interForbidden p tags)⟩]
     else [])
    ++ (if p.require_tag_for_detected && tags.isEmpty then
      [⟨p.id, r.table, r.column, (""), ("detected PII missing tag")⟩]
     else [])

/-- policy_engine.evaluate_policies: nested policy-then-row loop appending
violations to one accumulator. -/
def evaluate_policies (policies : List PolicyRule) (registry : List RegistryRow) :
    List Violation :=
  policies.foldl (fun acc p => registry.foldl (fun acc2 r => acc2 ++ evalRow p r) acc) []


theorem evalRow_len_aux (p : PolicyRule) (r : RegistryRow) : (evalRow p r).length ≤ 1 := by
  simp only [evalRow]
  split
  · simp
  · split
    · simp
    · cases hrt : rowTags r with
      | nil =>
        simp only [hrt, interForbidden, List.filter_nil, List.isEmpty_nil, Bool.not_true,
          Bool.and_false, Bool.false_eq_true, if_false, List.nil_append]
        split <;> simp
      | cons a l =>
        simp only [hrt, List.isEmpty_cons, Bool.and_false, Bool.false_eq_true, if_false,
          List.append_nil]
        split <;> simp

theorem foldl_append_bind {α β : Type} (f : α → List β) :
    ∀ (l : List α) (acc : List β),
      l.foldl (fun a x => a ++ f x) acc = acc ++ l.flatMap f := by
  intro l
  induction l with
  | nil => intro acc; simp
  | cons h t ih => intro acc; simp [List.foldl_cons, ih, List.flatMap_cons]

/-- Claim C8: evaluate_policies is deterministic (a pure function of its
inputs, so two runs agree definitionally) and order-preserving: its output
is exactly the policy-major, registry-minor concatenation of the
per-(policy, row) violation blocks. -/
theorem evaluate_policies_det_ordered :
    (∀ (ps : List PolicyRule) (reg : List RegistryRow),
        evaluate_policies ps reg = evaluate_policies ps reg)
    ∧ ∀ (ps : List PolicyRule) (reg : List RegistryRow),
        evaluate_policies ps reg = ps.flatMap (fun p => reg.flatMap (fun r => evalRow p r)) := by
  refine ⟨fun ps reg => rfl, fun ps reg => ?_⟩
  unfold evaluate_policies
  have hstep : (fun (acc : List Violation) (p : PolicyRule) =>
      reg.foldl (fun acc2 r => acc2 ++ evalRow p r) acc)
      = fun acc p => acc ++ reg.flatMap (fun r => evalRow p r) := by
    funext acc p
    exact foldl_append_bind (fun r => evalRow p r) reg acc
  rw [hstep, foldl_append_bind (fun p => reg.flatMap (fun r => evalRow p r)) ps []]
  simp

/-- Claim C1 counterexample: the claim asserts some (policy, row) pair emits
two violations; in fact no pair ever does, because the forbidden-tag check
requires a non-empty tag intersection while the missing-tag check requires
an empty tag set. -/
theorem no_policy_row_pair_emits_two :
    ¬ ∃ (p : PolicyRule) (r : RegistryRow), (evalRow p r).length = 2 := by
  rintro ⟨p, r, h⟩
  have hle := evalRow_len_aux p r
  omega

/-- Claim C1 (amended): a single (policy, row) pair emits zero or one
violation; the two checks are mutually exclusive, never both firing. -/
theorem evalRow_at_most_one_violation :
    ∀ (p : PolicyRule) (r : RegistryRow), (evalRow p r).length ≤ 1 :=
  fun p r => evalRow_len_aux p r

/-- Claim C2 counterexample: a rule list whose single rule has no id is not
rejected; evaluation proceeds over the registry and produces a violation
(with a missing policy_id), contradicting fail-before-evaluation. -/
theorem missing_id_not_rejected :
    evaluate_policies [⟨none, [("email")], none, none, false⟩]
        [⟨("users"), ("em"), some ("email")⟩]
      = [⟨none, ("users"), ("em"), ("email"), ("forbidden tags present: email")⟩] := by
  decide

/-- Claim C2 (amended): evaluate_policies performs no id validation at all;
a rule's id is only copied into the violations it emits, so replacing the id
(present or absent) changes nothing but the copied policy_id field. -/
theorem policy_id_only_copied (p : PolicyRule) (r : RegistryRow) (i : Option String) :
    evalRow ⟨i, p.forbidden_tags, p.applies_to_tables, PolicyRule.table_name_prefix p,
        p.require_tag_for_detected⟩ r
      = (evalRow p r).map (fun v => ⟨i, v.table, v.column, Violation.pii_tags v, v.reason⟩) := by
  by_cases hA : appliesSkip p.applies_to_tables r.table = true
  · simp [evalRow, hA]
  · by_cases hP : prefixSkip ( PolicyRule.table_name_prefix p) r.table = true
    · simp [evalRow, hA, hP]
    · by_cases hf : (!p.forbidden_tags.isEmpty && !(interForbidden p (rowTags r)).isEmpty) = true
      · by_cases hm : (p.require_tag_for_detected && (rowTags r).isEmpty) = true
        · simp [evalRow, hA, hP, hf, hm, interForbidden]
          split <;> simp
        · simp [evalRow, hA, hP, hf, hm, interForbidden]
          split <;> simp
      · by_cases hm : (p.require_tag_for_detected && (rowTags r).isEmpty) = true
        · simp [evalRow, hA, hP, hf, hm, interForbidden]
          split <;> simp
        · simp [evalRow, hA, hP, hf, hm, interForbidden]
          split <;> simp

/-- Claim C5: for every in-scope registry row whose tag set meets a policy's
non-empty forbidden_tags, evaluation of that (policy, row) pair emits exactly
one Violation, whose reason is "forbidden tags present: " followed by the
sorted comma-joined intersection and whose pii_tags is the row's full tag
set, sorted and comma-joined. -/
theorem forbidden_tag_violation_exact (p : PolicyRule) (r : RegistryRow)
    (hA : appliesSkip p.applies_to_tables r.table = false)
    (hP : prefixSkip ( PolicyRule.table_name_prefix p) r.table = false)
    (hF : p.forbidden_tags ≠ [])
    (hI : interForbidden p (rowTags r) ≠ []) :
    evalRow p r =
      [⟨p.id, r.table, r.column, joinSorted (rowTags r),
        ("forbidden tags present: ") ++ joinSorted (interForbidden p (rowTags r))⟩] := by
  have htags : rowTags r ≠ [] := by
    intro h
    apply hI
    simp [interForbidden, h]
  have hmiss : (rowTags r).isEmpty = false := by
    cases h : rowTags r with
    | nil => exact absurd h htags
    | cons a l => rfl
  have h1 : p.forbidden_tags.isEmpty = false := by
    cases h : p.forbidden_tags with
    | nil => exact absurd h hF
    | cons a l => rfl
  have h2 : (interForbidden p (rowTags r)).isEmpty = false := by
    cases h : interForbidden p (rowTags r) with
    | nil => exact absurd h hI
    | cons a l => rfl
  simp [evalRow, hA, hP, h1, h2, hmiss]

/-- Claim C5 witness: Scenario C of the spec, evaluated concretely. -/
theorem forbidden_tag_violation_exact_witness :
    evalRow ⟨some ("no_ssn"), [("national_id")], none, none, false⟩
        ⟨("logs"), ("ssn"), some ("national_id")⟩
      = [⟨some ("no_ssn"), ("logs"), ("ssn"), ("national_id"),
          ("forbidden tags present: national_id")⟩] := by
  have h := forbidden_tag_violation_exact
    ⟨some ("no_ssn"), [("national_id")], none, none, false⟩
    ⟨("logs"), ("ssn"), some ("national_id")⟩
    (by decide) (by decide) (by decide) (by decide)
  exact h.trans (by decide)

/-- Claim C6: the two scope filters combine with AND: a row is excluded from
both checks as soon as the explicit table list is set (non-empty) and misses
the row's table, or the name prefix is set (non-empty) and the table name
does not start with it. -/
theorem scope_filters_exclude (p : PolicyRule) (r : RegistryRow)
    (h : (∃ l, p.applies_to_tables = some l ∧ l ≠ [] ∧ r.table ∉ l)
       ∨ (∃ s, PolicyRule.table_name_prefix p = some s ∧ s ≠ ("")
            ∧ pyStartsWith r.table s = false)) :
    evalRow p r = [] := by
  rcases h with ⟨l, hl, hne, hmem⟩ | ⟨s, hs, hne, hsw⟩
  · have hskip : appliesSkip p.applies_to_tables r.table = true := by
      rw [hl]
      simp [appliesSkip, hne, hmem]
    simp [evalRow, hskip]
  · by_cases hA : appliesSkip p.applies_to_tables r.table = true
    · simp [evalRow, hA]
    · have hskip : prefixSkip ( PolicyRule.table_name_prefix p) r.table = true := by
        rw [hs]
        simp [prefixSkip, hne, hsw]
      simp [evalRow, hA, hskip]

/-- Claim C6 witness: Scenario D of the spec — a policy scoped to table
"users" with forbidden tag "email" emits nothing for a row in table "logs". -/
theorem scope_filters_exclude_witness :
    evalRow ⟨some ("users_only"), [("email")], some [("users")], none, false⟩
        ⟨("logs"), ("em"), some ("email")⟩ = [] :=
  scope_filters_exclude
    ⟨some ("users_only"), [("email")], some [("users")], none, false⟩
    ⟨("logs"), ("em"), some ("email")⟩
    (Or.inl ⟨[("users")], rfl, by decide, by decide⟩)

theorem charListLe_total (x : List Char) :
    ∀ y, charListLe x y = true ∨ charListLe y x = true := by
  induction x with
  | nil =>
    intro y
    left
    rfl
  | cons a as ih =>
    intro y
    cases y with
    | nil =>
      right
      rfl
    | cons b bs =>
      by_cases hab : a = b
      · subst hab
        have e1 : charListLe (a :: as) (a :: bs) = charListLe as bs := by
          simp [charListLe]
        have e2 : charListLe (a :: bs) (a :: as) = charListLe bs as := by
          simp [charListLe]
        rw [e1, e2]
        exact ih bs
      · have hb : (a == b) = false := beq_eq_false_iff_ne.mpr hab
        have hb2 : (b == a) = false := beq_eq_false_iff_ne.mpr (Ne.symm hab)
        have e1 : charListLe (a :: as) (b :: bs) = decide (a < b) := by
          simp [charListLe, hb]
        have e2 : charListLe (b :: bs) (a :: as) = decide (b < a) := by
          simp [charListLe, hb2]
        rw [e1, e2]
        rcases Ne.lt_or_lt hab with h | h
        · left
          exact decide_eq_true h
        · right
          exact decide_eq_true h

theorem charListLe_trans (x : List Char) :
    ∀ y z, charListLe x y = true → charListLe y z = true → charListLe x z = true := by
  induction x with
  | nil =>
    intro y z _ _
    rfl
  | cons a as ih =>
    intro y z hxy hyz
    cases y with
    | nil => simp [charListLe] at hxy
    | cons b bs =>
      cases z with
      | nil => simp [charListLe] at hyz
      | cons c cs =>
        by_cases hab : a = b
        · subst hab
          rw [show charListLe (a :: as) (a :: bs) = charListLe as bs from by
            simp [charListLe]] at hxy
          by_cases hac : a = c
          · subst hac
            rw [show charListLe (a :: bs) (a :: cs) = charListLe bs cs from by
              simp [charListLe]] at hyz
            rw [show charListLe (a :: as) (a :: cs) = charListLe as cs from by
              simp [charListLe]]
            exact ih bs cs hxy hyz
          · have hb : (a == c) = false := beq_eq_false_iff_ne.mpr hac
            rw [show charListLe (a :: bs) (c :: cs) = decide (a < c) from by
              simp [charListLe, hb]] at hyz
            rw [show charListLe (a :: as) (c :: cs) = decide (a < c) from by
              simp [charListLe, hb]]
            exact hyz
        · have hb : (a == b) = false := beq_eq_false_iff_ne.mpr hab
          rw [show charListLe (a :: as) (b :: bs) = decide (a < b) from by
            simp [charListLe, hb]] at hxy
          have hab2 : a < b := of_decide_eq_true hxy
          by_cases hbc : b = c
          · subst hbc
            rw [show charListLe (a :: as) (b :: cs) = decide (a < b) from by
              simp [charListLe, hb]]
            exact decide_eq_true hab2
          · have hbc2 : (b == c) = false := beq_eq_false_iff_ne.mpr hbc
            rw [show charListLe (b :: bs) (c :: cs) = decide (b < c) from by
              simp [charListLe, hbc2]] at hyz
            have hbc3 : b < c := of_decide_eq_true hyz
            have hac : a < c := lt_trans hab2 hbc3
            have hac2 : (a == c) = false := beq_eq_false_iff_ne.mpr (ne_of_lt hac)
            rw [show charListLe (a :: as) (c :: cs) = decide (a < c) from by
              simp [charListLe, hac2]]
            exact decide_eq_true hac

theorem pyStrLe_total (a b : String) : pyStrLe a b = true ∨ pyStrLe b a = true :=
  charListLe_total a.toList b.toList

theorem pyStrLe_trans (a b c : String) :
    pyStrLe a b = true → pyStrLe b c = true → pyStrLe a c = true :=
  charListLe_trans a.toList b.toList c.toList

theorem sortedTags_length (l : List String) : (sortedTags l).length = l.length :=
  (List.perm_insertionSort (fun a b : String => pyStrLe a b = true) l).length_eq

theorem sortedTags_facts (l : List String) (hl : l ≠ []) (hn : l.Nodup) :
    sortedTags l ≠ [] ∧ (sortedTags l).Nodup
    ∧ List.Sorted (fun a b : String => pyStrLe a b = true) (sortedTags l) := by
  refine ⟨?_, ?_, ?_⟩
  · intro h0
    apply hl
    have := sortedTags_length l
    rw [h0] at this
    exact List.length_eq_zero.mp this.symm
  · exact ((List.perm_insertionSort (fun a b : String => pyStrLe a b = true) l).nodup_iff).mpr hn
  · exact @List.sorted_insertionSort String (fun a b => pyStrLe a b = true)
      (fun a b => instDecidableEqBool (pyStrLe a b) true)
      ⟨pyStrLe_total⟩ ⟨pyStrLe_trans⟩ l

theorem classify_of_tp (tn : String) (col : Column) (ts ps : List String)
    (h : tagsAndParts col = (ts, ps)) (hne : ts ≠ []) :
    classifyColumn tn col = some ⟨tn, col.name, sortedTags ts, joinOrNA ps⟩ := by
  have he : ts.isEmpty = false := by
    cases ts with
    | nil => exact absurd rfl hne
    | cons a l => rfl
  simp [classifyColumn, h, he]

theorem tagsAndParts_shape (col : Column) :
    (∃ t, detect_by_name col.name = some t ∧ detect_by_values col.values = some t
      ∧ tagsAndParts col = ([t], [("name:") ++ t]))
    ∨ (∃ t u, detect_by_name col.name = some t ∧ detect_by_values col.values = some u
      ∧ t ≠ u ∧ tagsAndParts col = ([t, u], [("name:") ++ t, ("value:") ++ u]))
    ∨ (∃ t, detect_by_name col.name = some t ∧ detect_by_values col.values = none
      ∧ tagsAndParts col = ([t], [("name:") ++ t]))
    ∨ (∃ u, detect_by_name col.name = none ∧ detect_by_values col.values = some u
      ∧ tagsAndParts col = ([u], [("value:") ++ u]))
    ∨ (detect_by_name col.name = none ∧ detect_by_values col.values = none
      ∧ (tagsAndParts col = ([("name")], [("heuristic:name_with_spaces")])
         ∨ tagsAndParts col = ([], []))) := by
  cases hn : detect_by_name col.name with
  | some t =>
    cases hv : detect_by_values col.values with
    | some u =>
      by_cases he : ([t].contains u) = true
      · have htu : t = u := by
          have hb : (u == t) = true := by simpa [List.contains] using he
          exact (beq_iff_eq.mp hb).symm
        refine Or.inl ⟨t, rfl, by simp [htu], ?_⟩
        simp [tagsAndParts, hn, hv, htu]
      · have hne2 : ¬(u = t) := by
          intro hc
          apply he
          simp [List.contains, hc]
        refine Or.inr (Or.inl ⟨t, u, rfl, rfl, ?_, ?_⟩)
        · intro hc
          exact hne2 hc.symm
        · simp [tagsAndParts, hn, hv, hne2]
    | none =>
      refine Or.inr (Or.inr (Or.inl ⟨t, rfl, rfl, ?_⟩))
      simp [tagsAndParts, hn, hv]
  | none =>
    cases hv : detect_by_values col.values with
    | some u =>
      refine Or.inr (Or.inr (Or.inr (Or.inl ⟨u, rfl, rfl, ?_⟩)))
      simp [tagsAndParts, hn, hv]
    | none =>
      refine Or.inr (Or.inr (Or.inr (Or.inr ⟨rfl, rfl, ?_⟩)))
      unfold tagsAndParts
      rw [hn, hv]
      dsimp only
      by_cases hd : col.dtypeObject = true
      · have hd2 : ((List.isEmpty ([] : List String)) && col.dtypeObject) = true := by
          rw [hd]
          decide
        rw [if_pos hd2]
        by_cases hc : (!((col.values.filterMap (fun x => x)).take 20).isEmpty
            && decide (5 ≤ ((col.values.filterMap (fun x => x)).take 20).countP
                 (fun v => v.toList.contains (' ')))) = true
        · rw [if_pos hc]
          left
          rfl
        · rw [if_neg hc]
          right
          rfl
      · have hd2 : ¬ (((List.isEmpty ([] : List String)) && col.dtypeObject) = true) := by
          simpa using hd
        rw [if_neg hd2]
        right
        rfl

theorem joinWith_head_le (sep x : String) (xs : List String) :
    x.length ≤ (joinWith sep (x :: xs)).length := by
  cases xs with
  | nil => simp [joinWith]
  | cons y t =>
    simp only [joinWith, String.length_append]
    omega

theorem joinOrNA_ne_na (x : String) (xs : List String) (hx : 4 ≤ x.length) :
    joinOrNA (x :: xs) ≠ ("n/a") := by
  have hlen := joinWith_head_le (",") x xs
  have hne : (joinWith (",") (x :: xs) == ("")) = false := by
    rw [beq_eq_false_iff_ne]
    intro h0
    rw [h0] at hlen
    simp at hlen
    omega
  simp only [joinOrNA, hne, Bool.false_eq_true, if_false]
  intro hcontra
  have h3 : (joinWith (",") (x :: xs)).length = 3 := by
    rw [hcontra]
    decide
  omega

theorem tagsAndParts_none_none (col : Column) (hn : detect_by_name col.name = none)
    (hv : detect_by_values col.values = none) :
    tagsAndParts col =
      (if (col.dtypeObject
          && (!((col.values.filterMap (fun x => x)).take 20).isEmpty
              && decide (5 ≤ ((col.values.filterMap (fun x => x)).take 20).countP
                   (fun v => v.toList.contains (' '))))) = true then
        ([("name")], [("heuristic:name_with_spaces")])
      else ([], [])) := by
  unfold tagsAndParts
  rw [hn, hv]
  dsimp only
  by_cases hd : col.dtypeObject = true
  · have hd2 : ((List.isEmpty ([] : List String)) && col.dtypeObject) = true := by
      rw [hd]
      decide
    rw [if_pos hd2]
    by_cases hc : (!((col.values.filterMap (fun x => x)).take 20).isEmpty
        && decide (5 ≤ ((col.values.filterMap (fun x => x)).take 20).countP
             (fun v => v.toList.contains (' ')))) = true
    · rw [if_pos hc, if_pos (by rw [hd]; simpa using hc)]
      rfl
    · rw [if_neg hc, if_neg (by rw [hd]; simpa using hc)]
  · have hd3 : col.dtypeObject = false := by
      cases hb : col.dtypeObject with
      | false => rfl
      | true => exact absurd hb hd
    have hd2 : ¬(((List.isEmpty ([] : List String)) && col.dtypeObject) = true) := by
      rw [hd3]
      decide
    rw [if_neg hd2, if_neg (by rw [hd3]; simp)]

/-- Claim C3 (amended: the fallback counts values containing a space
character, U+0020, not arbitrary whitespace): when neither name nor value
detection fired and the column is textual, the fallback assigns exactly the
"name" tag with the heuristic marker iff at least 5 of the first 20 non-null
values contain a space; and whenever step 1 or step 2 found a tag, the tag
accumulator holds exactly the step-derived tags — the fallback never runs. -/
theorem fallback_space_heuristic (tn : String) (col : Column) :
    ((detect_by_name col.name = none ∧ detect_by_values col.values = none
        ∧ col.dtypeObject = true) →
      (classifyColumn tn col
          = some ⟨tn, col.name, [("name")], ("heuristic:name_with_spaces")⟩
        ↔ 5 ≤ ((col.values.filterMap (fun x => x)).take 20).countP
            (fun v => v.toList.contains (' '))))
    ∧ (∀ t, detect_by_name col.name = some t →
        (tagsAndParts col).1
          = t :: (match detect_by_values col.values with
                  | some u => if t = u then [] else [u]
                  | none => []))
    ∧ (∀ u, detect_by_name col.name = none → detect_by_values col.values = some u →
        (tagsAndParts col).1 = [u]) := by
  refine ⟨?_, ?_, ?_⟩
  · rintro ⟨hn, hv, hd⟩
    have htp := tagsAndParts_none_none col hn hv
    constructor
    · intro hcl
      by_contra h5
      have hcount : ¬ ((!((col.values.filterMap (fun x => x)).take 20).isEmpty
          && decide (5 ≤ ((col.values.filterMap (fun x => x)).take 20).countP
               (fun v => v.toList.contains (' ')))) = true) := by
        intro hcontra
        rw [Bool.and_eq_true] at hcontra
        exact h5 (of_decide_eq_true hcontra.2)
      rw [if_neg (by
        intro hcontra
        rw [Bool.and_eq_true] at hcontra
        exact hcount hcontra.2)] at htp
      simp [classifyColumn, htp] at hcl
    · intro h5
      have hne : ((col.values.filterMap (fun x => x)).take 20).isEmpty = false := by
        cases hl : (col.values.filterMap (fun x => x)).take 20 with
        | nil =>
          rw [hl] at h5
          simp at h5
        | cons a l => rfl
      have hcond : (col.dtypeObject
          && (!((col.values.filterMap (fun x => x)).take 20).isEmpty
              && decide (5 ≤ ((col.values.filterMap (fun x => x)).take 20).countP
                   (fun v => v.toList.contains (' '))))) = true := by
        rw [hd, hne]
        simpa using h5
      rw [if_pos hcond] at htp
      rw [classify_of_tp tn col _ _ htp (by simp)]
      have e1 : sortedTags [("name")] = [("name")] := by decide
      have e2 : joinOrNA [("heuristic:name_with_spaces")]
          = ("heuristic:name_with_spaces") := by decide
      rw [e1, e2]
  · intro t hn
    rcases tagsAndParts_shape col with ⟨t2, hn2, hv2, htp⟩ | ⟨t2, u, hn2, hv2, hne, htp⟩
      | ⟨t2, hn2, hv2, htp⟩ | ⟨u, hn2, hv2, htp⟩ | ⟨hn2, hv2, htp⟩
    · rw [hn] at hn2
      obtain rfl := Option.some.inj hn2
      simp [htp, hv2]
    · rw [hn] at hn2
      obtain rfl := Option.some.inj hn2
      simp [htp, hv2, hne]
    · rw [hn] at hn2
      obtain rfl := Option.some.inj hn2
      simp [htp, hv2]
    · rw [hn] at hn2
      exact absurd hn2 (Option.some_ne_none t)
    · rw [hn] at hn2
      exact absurd hn2 (Option.some_ne_none t)
  · intro u hn hv
    rcases tagsAndParts_shape col with ⟨t2, hn2, hv2, htp⟩ | ⟨t2, u2, hn2, hv2, hne, htp⟩
      | ⟨t2, hn2, hv2, htp⟩ | ⟨u2, hn2, hv2, htp⟩ | ⟨hn2, hv2, htp⟩
    · rw [hn2] at hn
      exact absurd hn (Option.some_ne_none t2)
    · rw [hn2] at hn
      exact absurd hn (Option.some_ne_none t2)
    · rw [hn2] at hn
      exact absurd hn (Option.some_ne_none t2)
    · rw [hv] at hv2
      obtain rfl := Option.some.inj hv2
      simp [htp]
    · rw [hv] at hv2
      exact absurd hv2 (Option.some_ne_none u)

/-- Claim C3 counterexample: a textual column named "notes" whose five
values each contain a tab — a whitespace character but not a space. Name and
value detection find nothing and 5 of the first 20 non-null values contain
whitespace, so the claim (as stated, with "whitespace") demands the "name"
tag; the code assigns no tag at all, because it tests for the space
character only. -/
theorem whitespace_fallback_cex :
    detect_by_name ("notes") = none
    ∧ detect_by_values
        [some ("a\tb"), some ("c\td"), some ("e\tf"), some ("g\th"), some ("i\tj")] = none
    ∧ 5 ≤ ((([some ("a\tb"), some ("c\td"), some ("e\tf"), some ("g\th"),
          some ("i\tj")] : List (Option String)).filterMap (fun x => x)).take 20).countP
          (fun v => v.toList.any Char.isWhitespace)
    ∧ classifyColumn ("t")
        ⟨("notes"), [some ("a\tb"), some ("c\td"), some ("e\tf"), some ("g\th"),
          some ("i\tj")], true⟩ = none := by
  decide

/-- Claim C3 witness: five values with actual spaces do trigger the fallback. -/
theorem fallback_space_heuristic_witness :
    classifyColumn ("t")
        ⟨("notes"), [some ("a b"), some ("c d"), some ("e f"), some ("g h"),
          some ("i j")], true⟩
      = some ⟨("t"), ("notes"), [("name")], ("heuristic:name_with_spaces")⟩ :=
  ((fallback_space_heuristic ("t")
      ⟨("notes"), [some ("a b"), some ("c d"), some ("e f"), some ("g h"),
        some ("i j")], true⟩).1 ⟨by decide, by decide, rfl⟩).mpr (by decide)

theorem find?_append_first {α : Type} (p : α → Bool) (a : α) :
    ∀ (pre post : List α), p a = true → (∀ x ∈ pre, ¬ p x = true) →
      (pre ++ a :: post).find? p = some a := by
  intro pre
  induction pre with
  | nil =>
    intro post ha _
    exact List.find?_cons_of_pos _ ha
  | cons b t ih =>
    intro post ha hpre
    have hb : ¬ p b = true := hpre b (by simp)
    rw [List.cons_append, List.find?_cons_of_neg _ hb]
    exact ih post ha (fun x hx => hpre x (by simp [hx]))

theorem find?_eq_some_decomp {α : Type} (p : α → Bool) :
    ∀ (l : List α) (a : α), l.find? p = some a →
      ∃ pre post, l = pre ++ a :: post ∧ p a = true ∧ ∀ x ∈ pre, ¬ p x = true := by
  intro l
  induction l with
  | nil =>
    intro a h
    simp at h
  | cons b t ih =>
    intro a h
    by_cases hb : p b = true
    · rw [List.find?_cons_of_pos _ hb] at h
      obtain rfl := Option.some.inj h
      exact ⟨[], t, rfl, hb, by simp⟩
    · rw [List.find?_cons_of_neg _ hb] at h
      obtain ⟨pre, post, heq, hpa, hpre⟩ := ih a h
      refine ⟨b :: pre, post, by rw [heq, List.cons_append], hpa, ?_⟩
      intro x hx
      rcases List.mem_cons.mp hx with rfl | hx2
      · exact hb
      · exact hpre x hx2

/-- Claim C4: value detection depends only on the first 50 non-null values
and is first-match-wins in catalog order: a produced tag sits at a catalog
position whose pattern has at least 3 full-string matches while every
earlier catalog pattern has at most 2; conversely, whenever a catalog entry
reaches 3 matches and all entries before it stay at 2 or fewer, exactly that
entry's tag is returned; and when every tag's pattern matches at most 2
sampled values, no value-derived tag is produced. -/
theorem value_detection_threshold :
    (∀ s1 s2 : List (Option String),
        (s1.filterMap (fun x => x)).take 50 = (s2.filterMap (fun x => x)).take 50 →
        detect_by_values s1 = detect_by_values s2)
    ∧ (∀ (s : List (Option String)) (tag : String), detect_by_values s = some tag →
        ∃ pre post matcher,
          PII_VALUE_REGEXES = pre ++ ((tag, matcher)) :: post
          ∧ 3 ≤ ((s.filterMap (fun x => x)).take 50).countP matcher
          ∧ ∀ tp ∈ pre, ((s.filterMap (fun x => x)).take 50).countP tp.2 ≤ 2)
    ∧ (∀ (s : List (Option String)) (pre post : List (String × (String → Bool)))
          (tag : String) (matcher : String → Bool),
        PII_VALUE_REGEXES = pre ++ ((tag, matcher)) :: post →
        3 ≤ ((s.filterMap (fun x => x)).take 50).countP matcher →
        (∀ tp ∈ pre, ((s.filterMap (fun x => x)).take 50).countP tp.2 ≤ 2) →
        detect_by_values s = some tag)
    ∧ (∀ s : List (Option String),
        (∀ tp ∈ PII_VALUE_REGEXES, ((s.filterMap (fun x => x)).take 50).countP tp.2 ≤ 2) →
        detect_by_values s = none) := by
  refine ⟨fun s1 s2 h => ?_, fun s tag h => ?_,
    fun s pre post tag matcher heq h3 hpre => ?_, fun s h => ?_⟩
  · simp only [detect_by_values, h]
  · rw [detect_by_values] at h
    by_cases he : ((s.filterMap (fun x => x)).take 50).isEmpty = true
    · simp [he] at h
    · simp only [he, Bool.false_eq_true, if_false, if_neg] at h
      rcases Option.map_eq_some'.mp h with ⟨tp, hfind, htag⟩
      obtain ⟨pre, post, hdec, hp, hpre⟩ := find?_eq_some_decomp _ _ _ hfind
      refine ⟨pre, post, tp.2, ?_, of_decide_eq_true hp, ?_⟩
      · rw [hdec, ← htag]
      · intro x hx
        have hx2 := hpre x hx
        simp only [decide_eq_true_eq] at hx2
        omega
  · have hne : ((s.filterMap (fun x => x)).take 50).isEmpty = false := by
      cases hl : (s.filterMap (fun x => x)).take 50 with
      | nil =>
        rw [hl] at h3
        simp at h3
      | cons a l => rfl
    rw [detect_by_values]
    simp only [hne, Bool.false_eq_true, if_false]
    rw [heq, find?_append_first (fun tp =>
        decide (3 ≤ ((s.filterMap (fun x => x)).take 50).countP tp.2)) ((tag, matcher))
        pre post (decide_eq_true h3) ?side]
    case side =>
      intro x hx
      simp only [decide_eq_true_eq]
      have h2 := hpre x hx
      omega
    rfl
  · have hfind : (PII_VALUE_REGEXES.find? (fun tp =>
        decide (3 ≤ ((s.filterMap (fun x => x)).take 50).countP tp.2))) = none := by
      apply List.find?_eq_none.mpr
      intro tp hmem
      simp only [decide_eq_true_eq]
      have h2 := h tp hmem
      omega
    rw [detect_by_values]
    by_cases he : ((s.filterMap (fun x => x)).take 50).isEmpty = true
    · simp [he]
    · simp [he, hfind]

/-- Claim C4 witness: one email-shaped value and three phone-shaped values
in the sample — email stays at 1 < 3 matches, phone (later in the catalog)
reaches 3, so "phone" is the value-derived tag. -/
theorem value_detection_threshold_witness :
    detect_by_values [some ("a@b.com"), some ("12345678"), some ("23456789"),
        some ("34567890")] = some ("phone") :=
  value_detection_threshold.2.2.1
    [some ("a@b.com"), some ("12345678"), some ("23456789"), some ("34567890")]
    [(("email"), matchEmail)]
    [(("ip"), matchIp), (("dob"), matchDob), (("national_id"), matchNationalId)]
    ("phone") matchPhone rfl (by decide) (by decide)

/-- Claim C9: a materialized Registry row's detection_reason is never the
defensive "n/a" default — some marker always fired when tags are non-empty. -/
theorem detection_reason_never_na (tn : String) (col : Column) (r : ColumnPIIResult)
    (h : classifyColumn tn col = some r) : r.detection_reason ≠ ("n/a") := by
  rcases tagsAndParts_shape col with ⟨t, hn, hv, htp⟩ | ⟨t, u, hn, hv, hne, htp⟩
    | ⟨t, hn, hv, htp⟩ | ⟨u, hn, hv, htp⟩ | ⟨hn, hv, htp⟩
  · rw [classify_of_tp tn col _ _ htp (by simp)] at h
    obtain rfl := Option.some.inj h
    show joinOrNA [("name:") ++ t] ≠ ("n/a")
    apply joinOrNA_ne_na
    rw [String.length_append]
    have h5 : (("name:")).length = 5 := by decide
    omega
  · rw [classify_of_tp tn col _ _ htp (by simp)] at h
    obtain rfl := Option.some.inj h
    show joinOrNA ((("name:") ++ t) :: [("value:") ++ u]) ≠ ("n/a")
    apply joinOrNA_ne_na
    rw [String.length_append]
    have h5 : (("name:")).length = 5 := by decide
    omega
  · rw [classify_of_tp tn col _ _ htp (by simp)] at h
    obtain rfl := Option.some.inj h
    show joinOrNA [("name:") ++ t] ≠ ("n/a")
    apply joinOrNA_ne_na
    rw [String.length_append]
    have h5 : (("name:")).length = 5 := by decide
    omega
  · rw [classify_of_tp tn col _ _ htp (by simp)] at h
    obtain rfl := Option.some.inj h
    show joinOrNA [("value:") ++ u] ≠ ("n/a")
    apply joinOrNA_ne_na
    rw [String.length_append]
    have h6 : (("value:")).length = 6 := by decide
    omega
  · rcases htp with htp | htp
    · rw [classify_of_tp tn col _ _ htp (by simp)] at h
      obtain rfl := Option.some.inj h
      show joinOrNA [("heuristic:name_with_spaces")] ≠ ("n/a")
      apply joinOrNA_ne_na
      decide
    · simp [classifyColumn, htp] at h

/-- Claim C9 witness: a column named "dob" (name detection only). -/
theorem detection_reason_never_na_witness :
    (⟨("t"), ("dob"), [("dob")], ("name:dob")⟩ : ColumnPIIResult).detection_reason
      ≠ ("n/a") :=
  detection_reason_never_na ("t") ⟨("dob"), [], false⟩
    ⟨("t"), ("dob"), [("dob")], ("name:dob")⟩ (by decide)

/-- Claim C10: a materialized classification carries one tag, or exactly two
when a name-derived and a distinct value-derived tag both fired; the
fallback tag never combines with any other tag. -/
theorem registry_row_tag_count (tn : String) (col : Column) (r : ColumnPIIResult)
    (h : classifyColumn tn col = some r) :
    r.detected_tags.length = 1
    ∨ (r.detected_tags.length = 2 ∧ ∃ a b, detect_by_name col.name = some a
        ∧ detect_by_values col.values = some b ∧ a ≠ b) := by
  rcases tagsAndParts_shape col with ⟨t, hn, hv, htp⟩ | ⟨t, u, hn, hv, hne, htp⟩
    | ⟨t, hn, hv, htp⟩ | ⟨u, hn, hv, htp⟩ | ⟨hn, hv, htp⟩
  · rw [classify_of_tp tn col _ _ htp (by simp)] at h
    obtain rfl := Option.some.inj h
    left
    show (sortedTags [t]).length = 1
    rw [sortedTags_length]
    rfl
  · rw [classify_of_tp tn col _ _ htp (by simp)] at h
    obtain rfl := Option.some.inj h
    right
    refine ⟨?_, t, u, hn, hv, hne⟩
    show (sortedTags [t, u]).length = 2
    rw [sortedTags_length]
    rfl
  · rw [classify_of_tp tn col _ _ htp (by simp)] at h
    obtain rfl := Option.some.inj h
    left
    show (sortedTags [t]).length = 1
    rw [sortedTags_length]
    rfl
  · rw [classify_of_tp tn col _ _ htp (by simp)] at h
    obtain rfl := Option.some.inj h
    left
    show (sortedTags [u]).length = 1
    rw [sortedTags_length]
    rfl
  · rcases htp with htp | htp
    · rw [classify_of_tp tn col _ _ htp (by simp)] at h
      obtain rfl := Option.some.inj h
      left
      show (sortedTags [("name")]).length = 1
      rw [sortedTags_length]
      rfl
    · simp [classifyColumn, htp] at h

/-- Claim C10 witness: a column named "email" holding phone-shaped values
carries exactly the two distinct step-derived tags. -/
theorem registry_row_tag_count_witness :
    (⟨("t"), ("email"), [("email"), ("phone")], ("name:email,value:phone")⟩
        : ColumnPIIResult).detected_tags.length = 1
    ∨ ((⟨("t"), ("email"), [("email"), ("phone")], ("name:email,value:phone")⟩
        : ColumnPIIResult).detected_tags.length = 2
      ∧ ∃ a b, detect_by_name ("email") = some a
          ∧ detect_by_values [some ("12345678"), some ("12345678"), some ("12345678")]
            = some b ∧ a ≠ b) :=
  registry_row_tag_count ("t")
    ⟨("email"), [some ("12345678"), some ("12345678"), some ("12345678")], false⟩
    ⟨("t"), ("email"), [("email"), ("phone")], ("name:email,value:phone")⟩ (by decide)

/-- Claim C7: every Registry row produced by the scanner has a non-empty,
deduplicated, canonically sorted tag list; untagged columns are never
represented. -/
theorem registry_rows_nonempty_sorted (df : List Column) (tn : String) (r : ColumnPIIResult)
    (h : r ∈ scan_dataframe df tn) :
    r.detected_tags ≠ [] ∧ r.detected_tags.Nodup
    ∧ List.Sorted (fun a b : String => pyStrLe a b = true) r.detected_tags := by
  rw [scan_dataframe, List.mem_filterMap] at h
  rcases h with ⟨col, hcol, hc⟩
  rcases tagsAndParts_shape col with ⟨t, hn, hv, htp⟩ | ⟨t, u, hn, hv, hne, htp⟩
    | ⟨t, hn, hv, htp⟩ | ⟨u, hn, hv, htp⟩ | ⟨hn, hv, htp⟩
  · rw [classify_of_tp tn col _ _ htp (by simp)] at hc
    obtain rfl := Option.some.inj hc
    exact sortedTags_facts [t] (by simp) (by simp)
  · rw [classify_of_tp tn col _ _ htp (by simp)] at hc
    obtain rfl := Option.some.inj hc
    exact sortedTags_facts [t, u] (by simp) (by simp [hne])
  · rw [classify_of_tp tn col _ _ htp (by simp)] at hc
    obtain rfl := Option.some.inj hc
    exact sortedTags_facts [t] (by simp) (by simp)
  · rw [classify_of_tp tn col _ _ htp (by simp)] at hc
    obtain rfl := Option.some.inj hc
    exact sortedTags_facts [u] (by simp) (by simp)
  · rcases htp with htp | htp
    · rw [classify_of_tp tn col _ _ htp (by simp)] at hc
      obtain rfl := Option.some.inj hc
      exact sortedTags_facts [("name")] (by simp) (by simp)
    · simp [classifyColumn, htp] at hc

/-- Claim C7 witness: scanning a one-column frame named "dob". -/
theorem registry_rows_nonempty_sorted_witness :
    (⟨("t"), ("dob"), [("dob")], ("name:dob")⟩ : ColumnPIIResult).detected_tags ≠ []
    ∧ (⟨("t"), ("dob"), [("dob")], ("name:dob")⟩
        : ColumnPIIResult).detected_tags.Nodup
    ∧ List.Sorted (fun a b : String => pyStrLe a b = true)
        (⟨("t"), ("dob"), [("dob")], ("name:dob")⟩ : ColumnPIIResult).detected_tags :=
  registry_rows_nonempty_sorted [⟨("dob"), [], false⟩] ("t")
    ⟨("t"), ("dob"), [("dob")], ("name:dob")⟩ (by decide)
